import Mathlib

/-!
Verification of the Solana mixer program (`src/solana/programs/mixer/src/lib.rs`).

The Rust source is shallowly embedded: machine integers become `Nat` (with
explicit `% 2 ^ w` where wrap-around matters), byte slices become `List Nat`,
fallible code returns `Except`, and the Solana runtime's opaque capability
calls (rent sysvar, account creation, lamport transfer, verifier CPI) are
modelled through an explicit environment plus an effect trace.
-/

/-- A 32-byte hash value (Merkle root, nullifier hash, field-encoded address).
Modelled as a list of byte values. -/
abbrev Root := List Nat

/-- The all-zero 32-byte value, used by the program as the unwritten-slot
sentinel (`[0u8; 32]`). -/
def zeroRoot : Root := List.replicate 32 0

/-- Embedding of `MixerState::ROOT_HISTORY_SIZE`: the ring buffer holds 30
roots. -/
def ROOT_HISTORY_SIZE : Nat := 30

/-- Embedding of `MixerState::LEN`: `8 + 32 * 30 + 1 = 969` bytes. -/
def STATE_LEN : Nat := 8 + 32 * ROOT_HISTORY_SIZE + 1

/-- Embedding of the Rust `MixerState` struct: fixed denomination, ring buffer
of recent Merkle roots, and the index of the latest root.  `roots` is a list
(length 30 in every state the program itself writes) and
`current_root_index` is the `u8` cursor. -/
structure MixerState where
  denomination : Nat
  roots : List Root
  current_root_index : Nat
deriving DecidableEq

/-- The scanning loop inside `MixerState::is_known_root`: starting at `idx`,
walk backward (wrapping at 0 to 29) for `fuel` steps, returning `some true` on
the first slot equal to `root`, `some false` after a full pass, and `none` if
an index falls outside the list (the Rust code would panic there: `roots[idx]`
with `idx` out of bounds). -/
def scanRoots (roots : List Root) (root : Root) : Nat → Nat → Option Bool
  | _, 0 => some false
  | idx, fuel + 1 =>
    match roots[idx]? with
    | none => none
    | some r =>
      if r = root then some true
      else scanRoots roots root (if idx = 0 then ROOT_HISTORY_SIZE - 1 else idx - 1) fuel

/-- Embedding of `MixerState::is_known_root`: the all-zero sentinel is never
known; otherwise scan all 30 slots starting at `current_root_index` going
backward.  `none` models the Rust index-out-of-bounds panic. -/
def MixerState.is_known_root (s : MixerState) (root : Root) : Option Bool :=
  if root = zeroRoot then some false
  else scanRoots s.roots root s.current_root_index ROOT_HISTORY_SIZE

/-- Embedding of `MixerState::push_root`: advance the cursor by one modulo 30
and overwrite exactly that slot. -/
def MixerState.push_root (s : MixerState) (root : Root) : MixerState :=
  let next := (s.current_root_index + 1) % ROOT_HISTORY_SIZE
  { s with roots := s.roots.set next root, current_root_index := next }

/-- Push a whole sequence of roots, oldest first. -/
def pushAll (s : MixerState) (rs : List Root) : MixerState :=
  rs.foldl MixerState.push_root s

/-- The pool state as written by the initialization handler: the given
denomination, all 30 root slots zeroed, cursor 0. -/
def initState (d : Nat) : MixerState :=
  { denomination := d, roots := List.replicate ROOT_HISTORY_SIZE zeroRoot,
    current_root_index := 0 }

/-- Embedding of the Rust `MixerError` enum. -/
inductive MixerError where
  | InvalidInstruction
  | UnknownRoot
  | NullifierUsed
  | VerificationFailed
deriving DecidableEq

/-- Embedding of the Rust `MixerInstruction` enum.  `InitPool` models the
source's `MixerInstruction::Initialize` variant. -/
inductive MixerInstruction where
  | InitPool (denomination : Nat)
  | PushRoot (new_root : Root)
  | Withdraw (root nullifier_hash recipient_field : Root) (proof : List Nat)
deriving DecidableEq

/-- Embedding of `u64::from_le_bytes`: assemble a value from LE bytes. -/
def u64_from_le_bytes (bs : List Nat) : Nat :=
  bs.foldr (fun b acc => b + 256 * acc) 0

/-- Embedding of `u64::to_le_bytes`: the 8 little-endian bytes of a `u64`. -/
def u64_to_le_bytes (n : Nat) : List Nat :=
  (List.range 8).map fun i => n / 256 ^ i % 256

/-- Embedding of `MixerInstruction::unpack`: first byte is the discriminant;
tag 0 needs exactly 8 further bytes (LE u64 denomination), tag 1 exactly 32
(the new root), tag 2 at least 96 (root, nullifier hash, recipient field, then
the proof blob); anything else is `InvalidInstruction`. -/
def MixerInstruction.unpack (input : List Nat) : Except MixerError MixerInstruction :=
  match input with
  | [] => .error .InvalidInstruction
  | tag :: rest =>
    if tag = 0 then
      if rest.length = 8 then .ok (.InitPool (u64_from_le_bytes rest))
      else .error .InvalidInstruction
    else if tag = 1 then
      if rest.length = 32 then .ok (.PushRoot rest)
      else .error .InvalidInstruction
    else if tag = 2 then
      if 96 ≤ rest.length then
        .ok (.Withdraw (rest.take 32) ((rest.drop 32).take 32)
          ((rest.drop 64).take 32) (rest.drop 96))
      else .error .InvalidInstruction
    else .error .InvalidInstruction

/-- Modelled from the spec: the client-side encoder is not part of `src/`;
section 6 of the specification fixes the wire format
(`0x00 || denomination:u64LE`, `0x01 || new_root`, `0x02 || root ||
nullifier_hash || recipient_field || proof`).  This definition follows those
words and is compared against the decoder `MixerInstruction.unpack` taken from
the source. -/
def MixerInstruction.pack : MixerInstruction → List Nat
  | .InitPool d => 0 :: u64_to_le_bytes d
  | .PushRoot r => 1 :: r
  | .Withdraw root nh rf proof => 2 :: (root ++ (nh ++ (rf ++ proof)))

deriving instance DecidableEq for Except

/-! ### Ring buffer lemmas -/

/-- One step of the scan: characterize `scanRoots` on a full-length buffer as
a bounded existential over the slots visited so far. -/
theorem scanRoots_eq (roots : List Root) (root : Root) (fuel : Nat) :
    ∀ idx, roots.length = 30 → idx < 30 → fuel ≤ 30 →
    scanRoots roots root idx fuel =
      some (decide (∃ j, j < fuel ∧ roots[(idx + 30 - j) % 30]? = some root)) := by
  induction fuel with
  | zero =>
    intro idx _ _ _
    simp [scanRoots]
  | succ n ih =>
    intro idx hl hidx hf
    have hidx' : idx < roots.length := by omega
    rw [scanRoots]
    simp only [List.getElem?_eq_getElem hidx']
    by_cases hre : roots[idx] = root
    · rw [if_pos hre]
      have hex : ∃ j, j < n + 1 ∧ roots[(idx + 30 - j) % 30]? = some root := by
        refine ⟨0, by omega, ?_⟩
        have he : (idx + 30 - 0) % 30 = idx := by omega
        rw [he, List.getElem?_eq_getElem hidx', hre]
      simp [hex]
    · rw [if_neg hre]
      have h1 : (if idx = 0 then ROOT_HISTORY_SIZE - 1 else idx - 1) < 30 := by
        by_cases h : idx = 0 <;> simp [ROOT_HISTORY_SIZE, h] <;> omega
      rw [ih _ hl h1 (by omega)]
      congr 1
      rw [decide_eq_decide]
      constructor
      · rintro ⟨j, hj, hget⟩
        refine ⟨j + 1, by omega, ?_⟩
        have he : (idx + 30 - (j + 1)) % 30 =
            ((if idx = 0 then ROOT_HISTORY_SIZE - 1 else idx - 1) + 30 - j) % 30 := by
          by_cases h : idx = 0 <;> simp [ROOT_HISTORY_SIZE, h] <;> omega
        rw [he]; exact hget
      · rintro ⟨j, hj, hget⟩
        match j, hj with
        | 0, _ =>
          exfalso
          have he : (idx + 30 - 0) % 30 = idx := by omega
          rw [he, List.getElem?_eq_getElem hidx'] at hget
          exact hre (Option.some.inj hget)
        | j + 1, hj =>
          refine ⟨j, by omega, ?_⟩
          have he : (idx + 30 - (j + 1)) % 30 =
              ((if idx = 0 then ROOT_HISTORY_SIZE - 1 else idx - 1) + 30 - j) % 30 := by
            by_cases h : idx = 0 <;> simp [ROOT_HISTORY_SIZE, h] <;> omega
          rw [← he]; exact hget

/-- On a well-formed state (30 slots, cursor in range), `is_known_root` is
exactly the membership test over the slots, with the all-zero sentinel
excluded, and it never panics. -/
theorem is_known_root_eq_mem (s : MixerState) (root : Root)
    (hl : s.roots.length = 30) (hidx : s.current_root_index < 30) :
    s.is_known_root root = some (decide (root ≠ zeroRoot ∧ root ∈ s.roots)) := by
  unfold MixerState.is_known_root
  by_cases hz : root = zeroRoot
  · simp [hz]
  · rw [if_neg hz, show ROOT_HISTORY_SIZE = 30 from rfl,
      scanRoots_eq s.roots root 30 s.current_root_index hl hidx (by omega)]
    congr 1
    rw [decide_eq_decide]
    constructor
    · rintro ⟨j, _, hget⟩
      obtain ⟨h, hg⟩ := List.getElem?_eq_some.mp hget
      exact ⟨hz, hg ▸ List.getElem_mem h⟩
    · rintro ⟨-, hmem⟩
      obtain ⟨k, hk, hget⟩ := List.mem_iff_getElem.mp hmem
      refine ⟨(s.current_root_index + 30 - k) % 30, by omega, ?_⟩
      have hk30 : k < 30 := by omega
      have he : (s.current_root_index + 30 -
          (s.current_root_index + 30 - k) % 30) % 30 = k := by omega
      rw [he, List.getElem?_eq_getElem hk, hget]

/-- Setting the element just past a prefix writes into the suffix. -/
theorem set_append_len (l1 l2 : List Root) (a : Root) :
    (l1 ++ l2).set l1.length a = l1 ++ l2.set 0 a := by
  induction l1 with
  | nil => rfl
  | cons x xs ih => simp [ih]

/-- Folding a push over a list appended with one more element. -/
theorem pushAll_append_singleton (s : MixerState) (l : List Root) (a : Root) :
    pushAll s (l ++ [a]) = (pushAll s l).push_root a := by
  simp [pushAll, List.foldl_append]

/-- After pushing at most 29 roots starting from the initialized state, slot 0
still holds the zero sentinel, slots `1..k` hold the pushed roots in order,
the remaining slots are still zero, and the cursor is at `k`. -/
theorem pushAll_init_le29 (d : Nat) (rs : List Root) :
    rs.length ≤ 29 →
    pushAll (initState d) rs =
      { denomination := d,
        roots := zeroRoot :: (rs ++ List.replicate (29 - rs.length) zeroRoot),
        current_root_index := rs.length } := by
  induction rs using List.reverseRecOn with
  | nil => intro _; rfl
  | append_singleton l a ih =>
    intro h
    have hl : l.length ≤ 28 := by simp at h; omega
    rw [pushAll_append_singleton, ih (by omega)]
    unfold MixerState.push_root
    have hnext : (l.length + 1) % ROOT_HISTORY_SIZE = l.length + 1 := by
      unfold ROOT_HISTORY_SIZE; omega
    simp only [hnext]
    congr 1
    · have hrep : (29 - l.length) = (28 - l.length) + 1 := by omega
      rw [show (zeroRoot :: (l ++ List.replicate (29 - l.length) zeroRoot)).set
            (l.length + 1) a =
          zeroRoot :: ((l ++ List.replicate (29 - l.length) zeroRoot).set l.length a)
        from rfl]
      rw [set_append_len, hrep, List.replicate_succ, List.set_cons_zero]
      simp
    · simp

/-- The 30th push lands on slot 0, overwriting the initial zero sentinel. -/
theorem pushAll_init_30 (d : Nat) (l : List Root) (a : Root) (h : l.length = 29) :
    pushAll (initState d) (l ++ [a]) =
      { denomination := d, roots := a :: l, current_root_index := 0 } := by
  rw [pushAll_append_singleton, pushAll_init_le29 d l (by omega)]
  unfold MixerState.push_root
  simp [h, ROOT_HISTORY_SIZE]

/-- The 31st push lands on slot 1, expiring the very first pushed root. -/
theorem pushAll_init_31 (d : Nat) (c : Root) (t : List Root) (a b : Root)
    (ht : t.length = 28) :
    pushAll (initState d) ((c :: t) ++ [a, b]) =
      { denomination := d, roots := a :: b :: t, current_root_index := 1 } := by
  have h1 : (c :: t) ++ [a, b] = ((c :: t) ++ [a]) ++ [b] := by simp
  rw [h1, pushAll_append_singleton, pushAll_init_30 d (c :: t) a (by simp [ht])]
  unfold MixerState.push_root
  simp [ROOT_HISTORY_SIZE]

/-- A sample non-zero root used by concrete scenarios. -/
def rootOne : Root := List.replicate 32 1

/-- 31 pairwise-distinct non-zero roots. -/
def root31s : List Root := (List.range 31).map fun i => List.replicate 32 (i + 1)

/-- C6 counterexample: the all-zero value can itself be pushed, and then it is
a pushed root for which `is_known_root` still answers `false`, so "true for
every pushed root" fails as stated. -/
theorem C6_counterexample :
    zeroRoot ∈ [zeroRoot] ∧
      (pushAll (initState 5) [zeroRoot]).is_known_root zeroRoot = some false := by
  constructor
  · simp
  · decide

/-- C6 (amended): starting from the initialized state, for every sequence of
at most 30 pushed roots, `is_known_root` returns `some true` for every pushed
root other than the all-zero sentinel, `some false` for every value never
pushed, and `some false` for the all-zero sentinel itself. -/
theorem C6_ring_membership (d : Nat) (rs : List Root) (h : rs.length ≤ 30) :
    (∀ r ∈ rs, r ≠ zeroRoot →
        (pushAll (initState d) rs).is_known_root r = some true) ∧
    (∀ r, r ∉ rs → r ≠ zeroRoot →
        (pushAll (initState d) rs).is_known_root r = some false) ∧
    (pushAll (initState d) rs).is_known_root zeroRoot = some false := by
  by_cases hle : rs.length ≤ 29
  · rw [pushAll_init_le29 d rs hle]
    have hl : (zeroRoot :: (rs ++ List.replicate (29 - rs.length) zeroRoot)).length
        = 30 := by simp; omega
    refine ⟨?_, ?_, ?_⟩
    · intro r hmem hne
      rw [is_known_root_eq_mem _ _ hl (by simp; omega)]
      simp [hne, List.mem_append, hmem]
    · intro r hnm hne
      rw [is_known_root_eq_mem _ _ hl (by simp; omega)]
      simp [hne, List.mem_append, hnm, List.mem_replicate]
    · simp [MixerState.is_known_root]
  · have h30 : rs.length = 30 := by omega
    obtain ⟨l, a, rfl, hl29⟩ : ∃ l a, rs = l ++ [a] ∧ l.length = 29 := by
      rcases rs.eq_nil_or_concat with hnil | ⟨L, b, hc⟩
      · rw [hnil] at h30; simp at h30
      · refine ⟨L, b, by simpa using hc, ?_⟩
        rw [hc] at h30; simp at h30; omega
    rw [pushAll_init_30 d l a hl29]
    have hl : (a :: l).length = 30 := by simp [hl29]
    refine ⟨?_, ?_, ?_⟩
    · intro r hmem hne
      rw [is_known_root_eq_mem _ _ hl (by simp)]
      have : r ∈ a :: l := by
        rcases List.mem_append.mp hmem with h' | h'
        · exact List.mem_cons_of_mem _ h'
        · simp at h'; simp [h']
      simp [hne, this]
    · intro r hnm hne
      rw [is_known_root_eq_mem _ _ hl (by simp)]
      have : r ∉ a :: l := by
        intro hr
        rcases List.mem_cons.mp hr with h' | h'
        · exact hnm (by simp [h'])
        · exact hnm (List.mem_append_left _ h')
      simp [hne, this]
    · simp [MixerState.is_known_root]

/-- C6 witness: a concrete two-root history where the amended statement's
parts apply. -/
theorem C6_witness :
    (pushAll (initState 5) [rootOne]).is_known_root rootOne = some true :=
  (C6_ring_membership 5 [rootOne] (by decide)).1 rootOne (by decide) (by decide)

/-- C7: `push_root` advances the cursor by one modulo 30 and overwrites
exactly that slot; and after pushing 31 distinct non-zero roots from the
initialized state, the first pushed root is no longer known while each of the
30 most recent ones is. -/
theorem C7_ring_expiry :
    (∀ (s : MixerState) (r : Root),
        (s.push_root r).current_root_index = (s.current_root_index + 1) % 30 ∧
        (s.push_root r).roots = s.roots.set ((s.current_root_index + 1) % 30) r) ∧
    ∀ (d : Nat) (rs : List Root), rs.length = 31 → rs.Nodup →
      (∀ r ∈ rs, r ≠ zeroRoot) →
      (pushAll (initState d) rs).is_known_root (rs.getD 0 zeroRoot) = some false ∧
      ∀ r ∈ rs.drop 1, (pushAll (initState d) rs).is_known_root r = some true := by
  refine ⟨fun s r => ⟨rfl, rfl⟩, ?_⟩
  intro d rs h31 hnd hnz
  obtain ⟨c, m, rfl⟩ : ∃ c m, rs = c :: m := by
    cases rs with
    | nil => simp at h31
    | cons c m => exact ⟨c, m, rfl⟩
  have hm30 : m.length = 30 := by simp at h31; omega
  obtain ⟨L, b, hmL, hL29⟩ : ∃ L b, m = L ++ [b] ∧ L.length = 29 := by
    rcases m.eq_nil_or_concat with hnil | ⟨L, b, hc⟩
    · rw [hnil] at hm30; simp at hm30
    · refine ⟨L, b, by simpa using hc, ?_⟩
      rw [hc] at hm30; simp at hm30; omega
  obtain ⟨T, a, hLT, hT28⟩ : ∃ T a, L = T ++ [a] ∧ T.length = 28 := by
    rcases L.eq_nil_or_concat with hnil | ⟨T, a, hc⟩
    · rw [hnil] at hL29; simp at hL29
    · refine ⟨T, a, by simpa using hc, ?_⟩
      rw [hc] at hL29; simp at hL29; omega
  have hrs : c :: m = (c :: T) ++ [a, b] := by simp [hmL, hLT]
  rw [hrs, pushAll_init_31 d c T a b hT28]
  have hl : (a :: b :: T).length = 30 := by simp [hT28]
  have hcm : c ∉ m := (List.nodup_cons.mp hnd).1
  constructor
  · have hgd : ((c :: m).getD 0 zeroRoot) = c := rfl
    rw [← hrs, hgd, is_known_root_eq_mem _ _ hl (by simp)]
    have : c ∉ a :: b :: T := by
      intro hc
      apply hcm
      rw [hmL, hLT]
      rcases List.mem_cons.mp hc with h' | h'
      · simp [h']
      · rcases List.mem_cons.mp h' with h'' | h''
        · simp [h'']
        · exact List.mem_append_left _ (List.mem_append_left _ h'')
    simp [this]
  · intro r hr
    rw [← hrs] at hr
    have hrm : r ∈ m := by simpa using hr
    have hne : r ≠ zeroRoot := hnz r (List.mem_cons_of_mem _ hrm)
    rw [is_known_root_eq_mem _ _ hl (by simp)]
    have : r ∈ a :: b :: T := by
      rw [hmL, hLT] at hrm
      rcases List.mem_append.mp hrm with h' | h'
      · rcases List.mem_append.mp h' with h'' | h''
        · simp [h'']
        · simp at h''; simp [h'']
      · simp at h'; simp [h']
    simp [hne, this]

/-- C7 witness: 31 concrete distinct non-zero roots; the first is expired, a
later one is still known. -/
theorem C7_witness :
    (pushAll (initState 5) root31s).is_known_root (root31s.getD 0 zeroRoot)
        = some false ∧
      (pushAll (initState 5) root31s).is_known_root (List.replicate 32 2)
        = some true := by
  have h := C7_ring_expiry.2 5 root31s (by decide) (by decide) (by decide)
  exact ⟨h.1, h.2 (List.replicate 32 2) (by decide)⟩

/-! ### Accounts, runtime environment, and handlers -/

/-- The slice of a Solana `AccountInfo` the program reads or writes: address,
lamport balance, data bytes, signer flag, owner. -/
structure Account where
  key : Nat
  lamports : Nat
  data : List Nat
  is_signer : Bool
  owner : Nat
deriving DecidableEq

/-- The opaque host collaborators: the rent sysvar's `minimum_balance`, the
external verifier's accept/reject answer on a proof blob, and the program
derived address `find_program_address(["mixer_state"], program_id)` produces. -/
structure Env where
  rentMinimumBalance : Nat → Nat
  verifierAccepts : List Nat → Bool
  mixerStatePda : Nat

/-- Embedding of the `ProgramError` values the program can surface, plus
`BoundsViolation` for a Rust index panic. `CallFailed` stands for a failed
CPI into the system program. -/
inductive ProgramError where
  | Custom (e : MixerError)
  | MissingRequiredSignature
  | AccountDataTooSmall
  | InvalidArgument
  | CallFailed
  | BoundsViolation
deriving DecidableEq

/-- The externally visible calls a handler performs, in order. -/
inductive Effect where
  | createAccount (payer target lamports space owner : Nat)
  | invokeVerifier (programKey : Nat) (data : List Nat)
  | transferLamports (source dest amount : Nat)
  | writeAccountData (key : Nat)
deriving DecidableEq

/-- Embedding of `load_state`: fail with `AccountDataTooSmall` when the data
region is shorter than 969 bytes, else read the LE u64 denomination, the 30
32-byte roots, and the cursor byte at offset 968. -/
def load_state (data : List Nat) : Except ProgramError MixerState :=
  if data.length < STATE_LEN then .error .AccountDataTooSmall
  else .ok
    { denomination := u64_from_le_bytes (data.take 8),
      roots := (List.range ROOT_HISTORY_SIZE).map fun i => (data.drop (8 + i * 32)).take 32,
      current_root_index := data.getD (8 + 32 * ROOT_HISTORY_SIZE) 0 }

/-- Embedding of `store_state`: serialize denomination, roots, and cursor over
the first 969 bytes, preserving any bytes beyond them. -/
def store_state_bytes (data : List Nat) (s : MixerState) : List Nat :=
  u64_to_le_bytes s.denomination ++
    (s.roots.flatten ++ ([s.current_root_index % 256] ++ data.drop STATE_LEN))

/-- The byte image `process_initialize` writes: LE denomination, 960 zero root
bytes, cursor byte 0, preserving bytes past the fixed layout. -/
def init_write_bytes (data : List Nat) (d : Nat) : List Nat :=
  u64_to_le_bytes d ++
    (List.replicate (32 * ROOT_HISTORY_SIZE) 0 ++ ([0] ++ data.drop STATE_LEN))

/-- Embedding of `process_initialize` (named `process_init_pool` here): check
the payer signed; when the state account has zero lamports, check the PDA and
create the account (payer funds the rent minimum for 969 bytes); then — in
every case — rewrite denomination, zero all root slots, and reset the cursor
byte, provided the data region is large enough. -/
def process_init_pool (env : Env) (program_id : Nat) (payer state_account : Account)
    (denomination : Nat) : Except ProgramError (Account × Account) × List Effect :=
  if ¬payer.is_signer then (.error .MissingRequiredSignature, [])
  else
    let required := env.rentMinimumBalance STATE_LEN
    let step : Except ProgramError (Account × Account × List Effect) :=
      if state_account.lamports = 0 then
        if state_account.key ≠ env.mixerStatePda then .error .InvalidArgument
        else if payer.lamports < required then .error .CallFailed
        else .ok ({ payer with lamports := payer.lamports - required },
          { state_account with
            lamports := required,
            data := List.replicate STATE_LEN 0,
            owner := program_id },
          [.createAccount payer.key state_account.key required STATE_LEN program_id])
      else .ok (payer, state_account, [])
    match step with
    | .error e => (.error e, [])
    | .ok (p, st, effs) =>
      if st.data.length < STATE_LEN then (.error .AccountDataTooSmall, effs)
      else (.ok (p, { st with data := init_write_bytes st.data denomination }),
        effs ++ [.writeAccountData st.key])

/-- Embedding of `process_push_root`: authority must sign; load, push, store. -/
def process_push_root (authority state_account : Account) (new_root : Root) :
    Except ProgramError (Account × Account) × List Effect :=
  if ¬authority.is_signer then (.error .MissingRequiredSignature, [])
  else
    match load_state state_account.data with
    | .error e => (.error e, [])
    | .ok st =>
      let st' := st.push_root new_root
      if state_account.data.length < STATE_LEN then (.error .AccountDataTooSmall, [])
      else (.ok (authority,
        { state_account with data := store_state_bytes state_account.data st' }),
        [.writeAccountData state_account.key])

/-- The seven accounts `process_withdraw` receives, in order. -/
structure WithdrawAccounts where
  relayer : Account
  state_account : Account
  nullifier_account : Account
  vault_account : Account
  recipient_account : Account
  verifier_program : Account
  system_program : Account
deriving DecidableEq

/-- Embedding of `process_withdraw`, step for step:
1. load the pool state (`AccountDataTooSmall` on a short buffer);
2. reject with `UnknownRoot` when `is_known_root` answers false
   (`BoundsViolation` models the Rust panic on a corrupt cursor);
3. reject with `NullifierUsed` when the nullifier account has lamports;
4. the marker payer is hard-coded to the recipient account, which must have
   signed (`MissingRequiredSignature` otherwise);
5. create the marker account, funded by the recipient with the rent minimum
   for zero bytes;
6. CPI into the verifier with the proof blob (`VerificationFailed` on reject);
7. transfer `denomination` lamports from the vault to the recipient.
The `nullifier_hash` and `recipient_field` arguments are unused by the
handler, exactly as in the source (`_recipient_field`; the nullifier-account
identity is supplied by the caller and never re-derived from the hash). -/
def process_withdraw (env : Env) (a : WithdrawAccounts)
    (root _nullifier_hash _recipient_field : Root) (proof : List Nat) :
    Except ProgramError WithdrawAccounts × List Effect :=
  match load_state a.state_account.data with
  | .error e => (.error e, [])
  | .ok state =>
    match state.is_known_root root with
    | none => (.error .BoundsViolation, [])
    | some false => (.error (.Custom .UnknownRoot), [])
    | some true =>
      if a.nullifier_account.lamports > 0 then (.error (.Custom .NullifierUsed), [])
      else if ¬a.recipient_account.is_signer then (.error .MissingRequiredSignature, [])
      else
        let lam := env.rentMinimumBalance 0
        if a.recipient_account.lamports < lam then (.error .CallFailed, [])
        else
          let payer' := { a.recipient_account with
            lamports := a.recipient_account.lamports - lam }
          let marker := { a.nullifier_account with
            lamports := a.nullifier_account.lamports + lam,
            owner := a.system_program.key }
          let effs :=
            [Effect.createAccount a.recipient_account.key a.nullifier_account.key
              lam 0 a.system_program.key,
             Effect.invokeVerifier a.verifier_program.key proof]
          if env.verifierAccepts proof = false then
            (.error (.Custom .VerificationFailed), effs)
          else if a.vault_account.lamports < state.denomination then
            (.error .CallFailed, effs)
          else
            (.ok { a with
                nullifier_account := marker,
                vault_account := { a.vault_account with
                  lamports := a.vault_account.lamports - state.denomination },
                recipient_account := { payer' with
                  lamports := payer'.lamports + state.denomination } },
              effs ++ [.transferLamports a.vault_account.key
                a.recipient_account.key state.denomination])

/-! ### Withdraw path lemmas -/

/-- An unknown root is rejected with `UnknownRoot` and no effect is performed:
no marker creation, no verifier CPI, no transfer. -/
theorem withdraw_unknown_root (env : Env) (a : WithdrawAccounts)
    (root nh rf : Root) (proof : List Nat) (st : MixerState)
    (hload : load_state a.state_account.data = .ok st)
    (hroot : st.is_known_root root = some false) :
    process_withdraw env a root nh rf proof = (.error (.Custom .UnknownRoot), []) := by
  simp only [process_withdraw, hload, hroot]

/-- A nullifier account that already holds lamports is rejected with
`NullifierUsed`, before any effect, for every proof. -/
theorem withdraw_nullifier_used (env : Env) (a : WithdrawAccounts)
    (root nh rf : Root) (proof : List Nat) (st : MixerState)
    (hload : load_state a.state_account.data = .ok st)
    (hroot : st.is_known_root root = some true)
    (hn : 0 < a.nullifier_account.lamports) :
    process_withdraw env a root nh rf proof = (.error (.Custom .NullifierUsed), []) := by
  simp only [process_withdraw, hload, hroot]
  rw [if_pos hn]

/-- A non-signing recipient is rejected with `MissingRequiredSignature` after
the root and nullifier checks, before any effect. -/
theorem withdraw_missing_signature (env : Env) (a : WithdrawAccounts)
    (root nh rf : Root) (proof : List Nat) (st : MixerState)
    (hload : load_state a.state_account.data = .ok st)
    (hroot : st.is_known_root root = some true)
    (hn : a.nullifier_account.lamports = 0)
    (hs : a.recipient_account.is_signer = false) :
    process_withdraw env a root nh rf proof = (.error .MissingRequiredSignature, []) := by
  simp [process_withdraw, hload, hroot, hn, hs]

/-- Full characterization of a successful withdraw: every check passed, the
marker was funded by the recipient, the vault lost exactly the stored
denomination, the recipient netted denomination minus the marker rent, and
the effect trace is marker creation, verifier CPI, transfer — in that order. -/
theorem withdraw_ok_char (env : Env) (a : WithdrawAccounts) (root nh rf : Root)
    (proof : List Nat) (a' : WithdrawAccounts) (effs : List Effect)
    (h : process_withdraw env a root nh rf proof = (.ok a', effs)) :
    ∃ st, load_state a.state_account.data = .ok st ∧
      st.is_known_root root = some true ∧
      a.nullifier_account.lamports = 0 ∧
      a.recipient_account.is_signer = true ∧
      env.rentMinimumBalance 0 ≤ a.recipient_account.lamports ∧
      env.verifierAccepts proof = true ∧
      st.denomination ≤ a.vault_account.lamports ∧
      a' = { a with
        nullifier_account := { a.nullifier_account with
          lamports := a.nullifier_account.lamports + env.rentMinimumBalance 0,
          owner := a.system_program.key },
        vault_account := { a.vault_account with
          lamports := a.vault_account.lamports - st.denomination },
        recipient_account := { a.recipient_account with
          lamports := a.recipient_account.lamports - env.rentMinimumBalance 0
            + st.denomination } } ∧
      effs = [Effect.createAccount a.recipient_account.key a.nullifier_account.key
          (env.rentMinimumBalance 0) 0 a.system_program.key,
        Effect.invokeVerifier a.verifier_program.key proof,
        Effect.transferLamports a.vault_account.key a.recipient_account.key
          st.denomination] := by
  cases hload : load_state a.state_account.data with
  | error e =>
    simp [process_withdraw, hload] at h
  | ok st =>
    refine ⟨st, rfl, ?_⟩
    simp only [process_withdraw, hload] at h
    cases hroot : st.is_known_root root with
    | none => simp [hroot] at h
    | some b =>
      cases b with
      | false => simp [hroot] at h
      | true =>
        simp only [hroot] at h
        by_cases hn : a.nullifier_account.lamports > 0
        · rw [if_pos hn] at h; simp at h
        · rw [if_neg hn] at h
          by_cases hs : a.recipient_account.is_signer
          · rw [if_neg (not_not_intro hs)] at h
            by_cases hr : a.recipient_account.lamports < env.rentMinimumBalance 0
            · rw [if_pos hr] at h; simp at h
            · rw [if_neg hr] at h
              by_cases hv : env.verifierAccepts proof = false
              · rw [if_pos hv] at h; simp at h
              · rw [if_neg hv] at h
                by_cases hvault : a.vault_account.lamports < st.denomination
                · rw [if_pos hvault] at h; simp at h
                · rw [if_neg hvault] at h
                  have h1 : Except.ok _ = Except.ok a' := congrArg Prod.fst h
                  have h2 : _ = effs := congrArg Prod.snd h
                  refine ⟨rfl, by omega, hs, by omega, ?_, by omega, ?_, ?_⟩
                  · revert hv; cases env.verifierAccepts proof <;> simp
                  · exact (Except.ok.inj h1).symm
                  · exact h2.symm
          · rw [if_pos hs] at h
            simp at h

/-! ### Concrete scenario fixtures -/

/-- A concrete environment: marker rent 5 lamports, a verifier that accepts
every proof, expected pool PDA 1. -/
def env1 : Env :=
  { rentMinimumBalance := fun _ => 5, verifierAccepts := fun _ => true,
    mixerStatePda := 1 }

/-- A second sample root, never pushed in the scenarios. -/
def rootTwo : Root := List.replicate 32 2

/-- Concrete pool bytes: denomination 1000000, `rootOne` in slot 1, cursor 1. -/
def poolData : List Nat :=
  store_state_bytes (List.replicate STATE_LEN 0)
    { denomination := 1000000, roots := (List.replicate 30 zeroRoot).set 1 rootOne,
      current_root_index := 1 }

/-- Concrete withdraw account set: fresh nullifier account, funded vault,
signing recipient. -/
def wacc : WithdrawAccounts :=
  { relayer := { key := 0, lamports := 1, data := [], is_signer := true, owner := 9 },
    state_account := { key := 1, lamports := 10, data := poolData, is_signer := false, owner := 7 },
    nullifier_account := { key := 2, lamports := 0, data := [], is_signer := false, owner := 9 },
    vault_account := { key := 3, lamports := 2000000, data := [], is_signer := false, owner := 9 },
    recipient_account := { key := 4, lamports := 100, data := [], is_signer := true, owner := 9 },
    verifier_program := { key := 5, lamports := 1, data := [], is_signer := false, owner := 9 },
    system_program := { key := 6, lamports := 1, data := [], is_signer := false, owner := 9 } }

/-- Sample nullifier hash and recipient field bytes. -/
def nhOne : Root := List.replicate 32 3

/-- Sample recipient field bytes. -/
def rfOne : Root := List.replicate 32 4

/-- Extract the account set of a successful withdraw, with a fallback. -/
def okOrW (x : Except ProgramError WithdrawAccounts) (dflt : WithdrawAccounts) :
    WithdrawAccounts :=
  match x with
  | .ok a => a
  | .error _ => dflt

set_option maxRecDepth 16384

/-- The pool state stored in `poolData`. -/
def poolState : MixerState :=
  { denomination := 1000000, roots := (List.replicate 30 zeroRoot).set 1 rootOne,
    current_root_index := 1 }

/-- The account set `wacc` after its marker has been funded with 5 lamports. -/
def waccUsed : WithdrawAccounts :=
  { wacc with nullifier_account :=
      { key := 2, lamports := 5, data := [], is_signer := false, owner := 9 } }

/-- The account set `wacc` with a non-signing recipient. -/
def waccNoSig : WithdrawAccounts :=
  { wacc with recipient_account :=
      { key := 4, lamports := 100, data := [], is_signer := false, owner := 9 } }

/-! ### Claim theorems: withdraw path -/

/-- C2: a withdraw whose root is not known fails with `UnknownRoot` and
performs no effect at all — no marker creation, no verifier CPI, no transfer —
leaving all state unchanged. -/
theorem C2_unknown_root (env : Env) (a : WithdrawAccounts) (root nh rf : Root)
    (proof : List Nat) (st : MixerState)
    (hload : load_state a.state_account.data = .ok st)
    (hroot : st.is_known_root root = some false) :
    process_withdraw env a root nh rf proof = (.error (.Custom .UnknownRoot), []) :=
  withdraw_unknown_root env a root nh rf proof st hload hroot

/-- C2 witness: the never-pushed `rootTwo` is rejected on the concrete pool. -/
theorem C2_witness :
    process_withdraw env1 wacc rootTwo nhOne rfOne [] =
      (.error (.Custom .UnknownRoot), []) :=
  C2_unknown_root env1 wacc rootTwo nhOne rfOne [] poolState (by decide) (by decide)

/-- C1 counterexample: after a successful withdraw the marker holds lamports,
yet a second attempt presenting the same nullifier account together with an
unknown root fails with `UnknownRoot`, not `NullifierAlreadyUsed` — the claim
"every later attempt fails with NullifierAlreadyUsed" is false as stated. -/
theorem C1_counterexample :
    (process_withdraw env1 wacc rootOne nhOne rfOne []).1.isOk = true ∧
    0 < (okOrW (process_withdraw env1 wacc rootOne nhOne rfOne []).1
        wacc).nullifier_account.lamports ∧
    process_withdraw env1
        (okOrW (process_withdraw env1 wacc rootOne nhOne rfOne []).1 wacc)
        rootTwo nhOne rfOne [] = (.error (.Custom .UnknownRoot), []) ∧
    (MixerError.UnknownRoot ≠ MixerError.NullifierUsed) := by
  refine ⟨by decide, by decide, by decide, by decide⟩

/-- C1 (amended): a successful withdraw leaves the nullifier marker with the
(positive) rent-minimum lamports, and every later withdraw attempt against a
marker that holds lamports — provided its root passes the root check, which
runs first — fails with `NullifierUsed` before any effect, for every proof. -/
theorem C1_nullifier_replay (env : Env) (a : WithdrawAccounts)
    (root nh rf : Root) (proof : List Nat) :
    (∀ a' effs, process_withdraw env a root nh rf proof = (.ok a', effs) →
        0 < env.rentMinimumBalance 0 → 0 < a'.nullifier_account.lamports) ∧
    (∀ (env2 : Env) (b : WithdrawAccounts) (root2 nh2 rf2 : Root)
        (proof2 : List Nat) (st : MixerState),
        load_state b.state_account.data = .ok st →
        st.is_known_root root2 = some true →
        0 < b.nullifier_account.lamports →
        process_withdraw env2 b root2 nh2 rf2 proof2 =
          (.error (.Custom .NullifierUsed), [])) := by
  constructor
  · intro a' effs h hrent
    obtain ⟨st, _, _, _, _, _, _, _, ha', _⟩ :=
      withdraw_ok_char env a root nh rf proof a' effs h
    subst ha'
    show 0 < a.nullifier_account.lamports + env.rentMinimumBalance 0
    omega
  · intro env2 b root2 nh2 rf2 proof2 st hload hroot hn
    exact withdraw_nullifier_used env2 b root2 nh2 rf2 proof2 st hload hroot hn

/-- C1 witness: the concrete replay with the funded marker and the still-known
root is rejected with `NullifierUsed`. -/
theorem C1_witness :
    process_withdraw env1 waccUsed rootOne nhOne rfOne [] =
      (.error (.Custom .NullifierUsed), []) :=
  (C1_nullifier_replay env1 wacc rootOne nhOne rfOne []).2 env1 waccUsed rootOne
    nhOne rfOne [] poolState (by decide) (by decide) (by decide)

/-- C3 counterexample: on the concrete successful withdraw (denomination
1000000, marker rent 5) the vault decreases by exactly the denomination, but
the recipient — who funds the marker — nets 1000095, not 1000100: "recipient
balance increases by exactly denomination" is false as stated. -/
theorem C3_counterexample :
    (process_withdraw env1 wacc rootOne nhOne rfOne []).1.isOk = true ∧
    (okOrW (process_withdraw env1 wacc rootOne nhOne rfOne []).1
        wacc).vault_account.lamports = 2000000 - 1000000 ∧
    (okOrW (process_withdraw env1 wacc rootOne nhOne rfOne []).1
        wacc).recipient_account.lamports = 1000095 ∧
    (okOrW (process_withdraw env1 wacc rootOne nhOne rfOne []).1
        wacc).recipient_account.lamports ≠ 100 + 1000000 := by
  refine ⟨by decide, by decide, by decide, by decide⟩

/-- C3 (amended): a withdraw that passes every check transfers exactly the
stored denomination out of the vault to the recipient; since the recipient
also funds the marker, its balance nets denomination minus the marker rent;
the marker account ends with exactly the rent-minimum lamports. -/
theorem C3_withdraw_transfer (env : Env) (a : WithdrawAccounts)
    (root nh rf : Root) (proof : List Nat) (a' : WithdrawAccounts)
    (effs : List Effect)
    (h : process_withdraw env a root nh rf proof = (.ok a', effs)) :
    ∃ st, load_state a.state_account.data = .ok st ∧
      st.denomination ≤ a.vault_account.lamports ∧
      a'.vault_account.lamports = a.vault_account.lamports - st.denomination ∧
      a'.recipient_account.lamports =
        a.recipient_account.lamports - env.rentMinimumBalance 0 + st.denomination ∧
      a'.nullifier_account.lamports = env.rentMinimumBalance 0 ∧
      Effect.transferLamports a.vault_account.key a.recipient_account.key
        st.denomination ∈ effs := by
  obtain ⟨st, hload, hroot, hn0, hsig, hrec, hacc, hvault, ha', heffs⟩ :=
    withdraw_ok_char env a root nh rf proof a' effs h
  refine ⟨st, hload, hvault, ?_, ?_, ?_, ?_⟩
  · rw [ha']
  · rw [ha']
  · rw [ha']
    show a.nullifier_account.lamports + env.rentMinimumBalance 0 =
      env.rentMinimumBalance 0
    omega
  · rw [heffs]
    simp

/-- C3 witness: the amended statement applied to the concrete scenario. -/
theorem C3_witness :
    ∃ st, load_state wacc.state_account.data = .ok st ∧
      st.denomination ≤ wacc.vault_account.lamports ∧
      (okOrW (process_withdraw env1 wacc rootOne nhOne rfOne []).1
          wacc).vault_account.lamports =
        wacc.vault_account.lamports - st.denomination ∧
      (okOrW (process_withdraw env1 wacc rootOne nhOne rfOne []).1
          wacc).recipient_account.lamports =
        wacc.recipient_account.lamports - env1.rentMinimumBalance 0
          + st.denomination ∧
      (okOrW (process_withdraw env1 wacc rootOne nhOne rfOne []).1
          wacc).nullifier_account.lamports = env1.rentMinimumBalance 0 ∧
      Effect.transferLamports wacc.vault_account.key wacc.recipient_account.key
          st.denomination ∈
        (process_withdraw env1 wacc rootOne nhOne rfOne []).2 :=
  C3_withdraw_transfer env1 wacc rootOne nhOne rfOne []
    (okOrW (process_withdraw env1 wacc rootOne nhOne rfOne []).1 wacc)
    (process_withdraw env1 wacc rootOne nhOne rfOne []).2 (by decide)

/-- The effect trace of a withdraw is always a prefix of
marker-creation, verifier CPI, transfer: it never contains a pool-state
data write. -/
theorem withdraw_no_state_write (env : Env) (a : WithdrawAccounts)
    (root nh rf : Root) (proof : List Nat) :
    ∀ e ∈ (process_withdraw env a root nh rf proof).2,
      ∀ k, e ≠ .writeAccountData k := by
  unfold process_withdraw
  repeat' split
  all_goals intro e he k
  all_goals try simp only [apply_ite Prod.snd] at he
  all_goals try split at he
  all_goals simp at he
  all_goals try (rcases he with rfl | rfl | rfl)
  all_goals simp

/-- Every marker-creation effect a withdraw performs names the recipient as
the payer and the nullifier account as the target. -/
theorem withdraw_marker_payer (env : Env) (a : WithdrawAccounts)
    (root nh rf : Root) (proof : List Nat) :
    ∀ p t l spc o,
      Effect.createAccount p t l spc o ∈ (process_withdraw env a root nh rf proof).2 →
      p = a.recipient_account.key ∧ t = a.nullifier_account.key := by
  unfold process_withdraw
  repeat' split
  all_goals intro p t l spc o he
  all_goals try simp only [apply_ite Prod.snd] at he
  all_goals try split at he
  all_goals simp at he
  all_goals exact ⟨he.1, he.2.1⟩

/-- C5: a withdraw never writes the pool-state account: on success the state
account (and relayer) are byte-identical and the effect trace is exactly
marker creation, verifier CPI, fund transfer; and no effect trace of any
withdraw, successful or failed, contains an account-data write. -/
theorem C5_withdraw_frame (env : Env) (a : WithdrawAccounts) (root nh rf : Root)
    (proof : List Nat) :
    (∀ a' effs, process_withdraw env a root nh rf proof = (.ok a', effs) →
        a'.state_account = a.state_account ∧ a'.relayer = a.relayer ∧
        ∃ st, load_state a.state_account.data = .ok st ∧
          effs = [Effect.createAccount a.recipient_account.key
              a.nullifier_account.key (env.rentMinimumBalance 0) 0
              a.system_program.key,
            Effect.invokeVerifier a.verifier_program.key proof,
            Effect.transferLamports a.vault_account.key a.recipient_account.key
              st.denomination]) ∧
    (∀ e ∈ (process_withdraw env a root nh rf proof).2,
      ∀ k, e ≠ .writeAccountData k) := by
  constructor
  · intro a' effs h
    obtain ⟨st, hload, _, _, _, _, _, _, ha', heffs⟩ :=
      withdraw_ok_char env a root nh rf proof a' effs h
    subst ha'
    exact ⟨rfl, rfl, st, hload, heffs⟩
  · exact withdraw_no_state_write env a root nh rf proof

/-- C5 witness: on the concrete successful withdraw the pool-state account is
unchanged. -/
theorem C5_witness :
    (okOrW (process_withdraw env1 wacc rootOne nhOne rfOne []).1
        wacc).state_account = wacc.state_account :=
  ((C5_withdraw_frame env1 wacc rootOne nhOne rfOne []).1
    (okOrW (process_withdraw env1 wacc rootOne nhOne rfOne []).1 wacc)
    (process_withdraw env1 wacc rootOne nhOne rfOne []).2 (by decide)).1

/-- C10: the marker payer is hard-coded to the recipient, so a non-signing
recipient is rejected with a missing-required-signature error once the root
and nullifier checks have passed, before any effect; with a failing root
check the error is `UnknownRoot` and with a used nullifier it is
`NullifierUsed`, in both cases regardless of the recipient's signer flag; and
every marker-creation effect names the recipient as payer. -/
theorem C10_recipient_signer (env : Env) (a : WithdrawAccounts)
    (root nh rf : Root) (proof : List Nat) (st : MixerState) :
    (load_state a.state_account.data = .ok st →
      st.is_known_root root = some true →
      a.nullifier_account.lamports = 0 →
      a.recipient_account.is_signer = false →
      process_withdraw env a root nh rf proof =
        (.error .MissingRequiredSignature, [])) ∧
    (load_state a.state_account.data = .ok st →
      st.is_known_root root = some false →
      process_withdraw env a root nh rf proof =
        (.error (.Custom .UnknownRoot), [])) ∧
    (load_state a.state_account.data = .ok st →
      st.is_known_root root = some true →
      0 < a.nullifier_account.lamports →
      process_withdraw env a root nh rf proof =
        (.error (.Custom .NullifierUsed), [])) ∧
    (∀ p t l spc o,
      Effect.createAccount p t l spc o ∈ (process_withdraw env a root nh rf proof).2 →
      p = a.recipient_account.key ∧ t = a.nullifier_account.key) := by
  refine ⟨?_, ?_, ?_, ?_⟩
  · intro hload hroot hn hs
    exact withdraw_missing_signature env a root nh rf proof st hload hroot hn hs
  · intro hload hroot
    exact withdraw_unknown_root env a root nh rf proof st hload hroot
  · intro hload hroot hn
    exact withdraw_nullifier_used env a root nh rf proof st hload hroot hn
  · exact withdraw_marker_payer env a root nh rf proof

/-- C10 witness: the concrete non-signing recipient is rejected. -/
theorem C10_witness :
    process_withdraw env1 waccNoSig rootOne nhOne rfOne [] =
      (.error .MissingRequiredSignature, []) :=
  (C10_recipient_signer env1 waccNoSig rootOne nhOne rfOne [] poolState).1
    (by decide) (by decide) (by decide) (by decide)

/-! ### Initialization byte-layout lemmas -/

/-- The LE encoding of a u64 is 8 bytes long. -/
theorem u64_to_le_bytes_length (n : Nat) : (u64_to_le_bytes n).length = 8 := by
  simp [u64_to_le_bytes]

/-- Reassembling the LE bytes of a `u64` gives the value back. -/
theorem u64_round_trip (d : Nat) (h : d < 2 ^ 64) :
    u64_from_le_bytes (u64_to_le_bytes d) = d := by
  unfold u64_to_le_bytes u64_from_le_bytes
  rw [show List.range 8 = [0, 1, 2, 3, 4, 5, 6, 7] from rfl]
  simp only [List.map_cons, List.map_nil, List.foldr_cons, List.foldr_nil]
  norm_num
  omega

/-- Loading the bytes written by the initialization handler yields the
freshly initialized pool state. -/
theorem load_init_write (data : List Nat) (d : Nat) (hd : d < 2 ^ 64) :
    load_state (init_write_bytes data d) = .ok (initState d) := by
  have hA : (u64_to_le_bytes d).length = 8 := u64_to_le_bytes_length d
  have hlen2 : ¬(init_write_bytes data d).length < STATE_LEN := by
    simp only [init_write_bytes, List.length_append, List.length_replicate,
      List.length_cons, hA]
    unfold STATE_LEN ROOT_HISTORY_SIZE
    omega
  have hden : u64_from_le_bytes ((init_write_bytes data d).take 8) = d := by
    unfold init_write_bytes
    rw [show (8 : Nat) = (u64_to_le_bytes d).length by omega, List.take_left]
    exact u64_round_trip d hd
  have hroots : ∀ i < 30,
      ((init_write_bytes data d).drop (8 + i * 32)).take 32 = zeroRoot := by
    intro i hi
    unfold init_write_bytes
    rw [show (8 : Nat) + i * 32 = (u64_to_le_bytes d).length + i * 32 by omega,
      List.drop_append, List.drop_append_eq_append_drop, List.drop_replicate]
    simp only [List.length_replicate]
    rw [show i * 32 - 32 * ROOT_HISTORY_SIZE = 0 by unfold ROOT_HISTORY_SIZE; omega,
      List.take_append_eq_append_take, List.take_replicate,
      show min 32 (32 * ROOT_HISTORY_SIZE - i * 32) = 32 by
        unfold ROOT_HISTORY_SIZE; omega]
    simp only [List.length_replicate]
    rw [show (32 : Nat) - (32 * ROOT_HISTORY_SIZE - i * 32) = 0 by
        unfold ROOT_HISTORY_SIZE; omega]
    simp [zeroRoot]
  have hcur : (init_write_bytes data d).getD (8 + 32 * ROOT_HISTORY_SIZE) 0 = 0 := by
    unfold init_write_bytes
    simp only [List.getD_eq_getElem?_getD]
    rw [show (8 : Nat) + 32 * ROOT_HISTORY_SIZE =
        (u64_to_le_bytes d).length + 32 * ROOT_HISTORY_SIZE by omega,
      List.getElem?_append_right (by omega),
      show (u64_to_le_bytes d).length + 32 * ROOT_HISTORY_SIZE
          - (u64_to_le_bytes d).length = 32 * ROOT_HISTORY_SIZE by omega,
      List.getElem?_append_right (by simp)]
    simp
  have hmap : ((List.range ROOT_HISTORY_SIZE).map fun i =>
      ((init_write_bytes data d).drop (8 + i * 32)).take 32) =
      List.replicate ROOT_HISTORY_SIZE zeroRoot := by
    apply List.eq_replicate_iff.2
    refine ⟨by simp, ?_⟩
    intro b hb
    obtain ⟨i, hi, rfl⟩ := List.mem_map.1 hb
    rw [List.mem_range] at hi
    exact hroots i (by unfold ROOT_HISTORY_SIZE at hi; omega)
  unfold load_state
  rw [if_neg hlen2, hmap, hden, hcur]
  rfl

/-! ### Claim theorems: initialization -/

/-- A second concrete environment for the initialization scenarios. -/
def env2 : Env :=
  { rentMinimumBalance := fun _ => 10, verifierAccepts := fun _ => true,
    mixerStatePda := 1 }

/-- Concrete initialization payer. -/
def payerA : Account :=
  { key := 0, lamports := 100, data := [], is_signer := true, owner := 9 }

/-- Concrete not-yet-created pool state account (zero lamports, key equal to
the expected PDA). -/
def stA : Account :=
  { key := 1, lamports := 0, data := [], is_signer := false, owner := 9 }

/-- The denomination stored in a pool account's data bytes. -/
def stored_denomination (acct : Account) : Nat :=
  u64_from_le_bytes (acct.data.take 8)

/-- Extract the resulting payer/state pair of an initialization call. -/
def initResult (r : Except ProgramError (Account × Account) × List Effect)
    (dp ds : Account) : Account × Account :=
  match r.1 with
  | .ok p => p
  | .error _ => (dp, ds)

/-- First initialization call: creates the pool with denomination 5. -/
def initRun1 : Except ProgramError (Account × Account) × List Effect :=
  process_init_pool env2 7 payerA stA 5

/-- Accounts after the first initialization. -/
def initAccounts1 : Account × Account := initResult initRun1 payerA stA

/-- Second initialization call against the existing pool, denomination 9. -/
def initRun2 : Except ProgramError (Account × Account) × List Effect :=
  process_init_pool env2 7 initAccounts1.1 initAccounts1.2 9

/-- Accounts after the second initialization. -/
def initAccounts2 : Account × Account := initResult initRun2 payerA stA

/-- C4 counterexample: a second Initialize call with a different denomination
succeeds and overwrites the stored denomination (5 becomes 9), so
"does not alter the stored denomination" is false on the code. -/
theorem C4_counterexample :
    initRun1.1.isOk = true ∧
    stored_denomination initAccounts1.2 = 5 ∧
    initRun2.1.isOk = true ∧
    stored_denomination initAccounts2.2 = 9 ∧
    (9 : Nat) ≠ 5 := by
  refine ⟨by decide, by decide, by decide, by decide, by decide⟩

/-- C4 (amended): a second Initialize call against existing storage (non-zero
lamports) skips account creation — no creation effect, payer and the state
account's key and lamports unchanged — but re-runs the state write: the
stored denomination becomes the *new* argument and all root slots and the
cursor are reset to zero. -/
theorem C4_reinit_overwrites (env : Env) (pid : Nat) (payer st : Account)
    (d : Nat) (hsig : payer.is_signer = true) (hlam : st.lamports ≠ 0)
    (hlen : STATE_LEN ≤ st.data.length) (hd : d < 2 ^ 64) :
    process_init_pool env pid payer st d =
      (.ok (payer, { st with data := init_write_bytes st.data d }),
        [.writeAccountData st.key]) ∧
    load_state (init_write_bytes st.data d) = .ok (initState d) := by
  constructor
  · have h1 : ¬st.data.length < STATE_LEN := by omega
    simp [process_init_pool, hsig, hlam, h1]
  · exact load_init_write st.data d hd

/-- C4 witness: the amended statement applied to the concrete second call. -/
theorem C4_witness :
    process_init_pool env2 7 initAccounts1.1 initAccounts1.2 9 =
      (.ok (initAccounts1.1,
          { initAccounts1.2 with
            data := init_write_bytes initAccounts1.2.data 9 }),
        [.writeAccountData initAccounts1.2.key]) ∧
    load_state (init_write_bytes initAccounts1.2.data 9) = .ok (initState 9) :=
  C4_reinit_overwrites env2 7 initAccounts1.1 initAccounts1.2 9 (by decide)
    (by decide) (by decide) (by decide)

/-- C9: initialization always stores cursor 0; `push_root` always writes
`(old + 1) % 30`, which is strictly below 30 and in bounds for a 30-slot
buffer; under that invariant `is_known_root` never hits an out-of-bounds
index (it always returns a value); and a corrupt state whose cursor is 30
makes the very first buffer access of `is_known_root` out of bounds (`none`,
the Rust panic). -/
theorem C9_cursor_safety :
    (∀ (env : Env) (pid : Nat) (payer st : Account) (d : Nat)
        (p2 st2 : Account) (effs : List Effect),
        process_init_pool env pid payer st d = (.ok (p2, st2), effs) →
        d < 2 ^ 64 →
        load_state st2.data = .ok (initState d) ∧
        (initState d).current_root_index = 0) ∧
    (∀ (s : MixerState) (r : Root),
        (s.push_root r).current_root_index = (s.current_root_index + 1) % 30 ∧
        (s.push_root r).current_root_index < 30) ∧
    (∀ (s : MixerState) (r : Root), s.current_root_index < 30 →
        s.roots.length = 30 →
        (∃ b, s.is_known_root r = some b) ∧
        (s.current_root_index + 1) % 30 < s.roots.length) ∧
    (({ denomination := 0, roots := List.replicate 30 zeroRoot,
        current_root_index := 30 } : MixerState).is_known_root rootOne = none) := by
  refine ⟨?_, ?_, ?_, by decide⟩
  · intro env pid payer st d p2 st2 effs h hd
    refine ⟨?_, rfl⟩
    simp only [process_init_pool] at h
    repeat' split at h
    all_goals simp at h
    all_goals obtain ⟨⟨hp, hst⟩, heff⟩ := h
    all_goals rw [← hst]
    all_goals exact load_init_write _ d hd
  · intro s r
    refine ⟨rfl, ?_⟩
    show (s.current_root_index + 1) % 30 < 30
    omega
  · intro s r hidx hl
    refine ⟨⟨_, is_known_root_eq_mem s r hl hidx⟩, ?_⟩
    omega

/-- C9 witness: after the concrete initialization the stored cursor is 0. -/
theorem C9_witness :
    load_state initAccounts1.2.data = .ok (initState 5) ∧
    (initState 5).current_root_index = 0 :=
  C9_cursor_safety.1 env2 7 payerA stA 5 initAccounts1.1 initAccounts1.2
    initRun1.2 (by decide) (by decide)

/-! ### Claim theorems: instruction decoder -/

/-- C8: the decoder succeeds exactly on well-formed payloads — tag 0 with
exactly 8 bytes (LE u64 denomination), tag 1 with exactly 32 bytes, tag 2
with at least 96 bytes (root, nullifier hash, recipient field, proof tail);
everything else, including the empty payload, fails with
`InvalidInstruction`; and encoding a well-formed payload then decoding it
returns identical field values. -/
theorem C8_decoder :
    (MixerInstruction.unpack [] = .error .InvalidInstruction) ∧
    (∀ rest : List Nat, rest.length = 8 →
        MixerInstruction.unpack (0 :: rest) =
          .ok (.InitPool (u64_from_le_bytes rest))) ∧
    (∀ rest : List Nat, rest.length ≠ 8 →
        MixerInstruction.unpack (0 :: rest) = .error .InvalidInstruction) ∧
    (∀ rest : List Nat, rest.length = 32 →
        MixerInstruction.unpack (1 :: rest) = .ok (.PushRoot rest)) ∧
    (∀ rest : List Nat, rest.length ≠ 32 →
        MixerInstruction.unpack (1 :: rest) = .error .InvalidInstruction) ∧
    (∀ rest : List Nat, 96 ≤ rest.length →
        MixerInstruction.unpack (2 :: rest) =
          .ok (.Withdraw (rest.take 32) ((rest.drop 32).take 32)
            ((rest.drop 64).take 32) (rest.drop 96))) ∧
    (∀ rest : List Nat, rest.length < 96 →
        MixerInstruction.unpack (2 :: rest) = .error .InvalidInstruction) ∧
    (∀ (tag : Nat) (rest : List Nat), tag ≠ 0 → tag ≠ 1 → tag ≠ 2 →
        MixerInstruction.unpack (tag :: rest) = .error .InvalidInstruction) ∧
    (∀ d : Nat, d < 2 ^ 64 →
        MixerInstruction.unpack (MixerInstruction.pack (.InitPool d)) =
          .ok (.InitPool d)) ∧
    (∀ r : Root, r.length = 32 →
        MixerInstruction.unpack (MixerInstruction.pack (.PushRoot r)) =
          .ok (.PushRoot r)) ∧
    (∀ (root nh rf : Root) (proof : List Nat),
        root.length = 32 → nh.length = 32 → rf.length = 32 →
        MixerInstruction.unpack
            (MixerInstruction.pack (.Withdraw root nh rf proof)) =
          .ok (.Withdraw root nh rf proof)) := by
  refine ⟨rfl, ?_, ?_, ?_, ?_, ?_, ?_, ?_, ?_, ?_, ?_⟩
  · intro rest h
    simp [MixerInstruction.unpack, h]
  · intro rest h
    simp [MixerInstruction.unpack, h]
  · intro rest h
    simp [MixerInstruction.unpack, h]
  · intro rest h
    simp [MixerInstruction.unpack, h]
  · intro rest h
    simp [MixerInstruction.unpack, h]
  · intro rest h
    simp [MixerInstruction.unpack, Nat.not_le.2 h]
  · intro tag rest h0 h1 h2
    simp [MixerInstruction.unpack, h0, h1, h2]
  · intro d hd
    have hl : (u64_to_le_bytes d).length = 8 := u64_to_le_bytes_length d
    simp [MixerInstruction.pack, MixerInstruction.unpack, hl,
      u64_round_trip d hd]
  · intro r h
    simp [MixerInstruction.pack, MixerInstruction.unpack, h]
  · intro root nh rf proof hroot hnh hrf
    have hlen : 96 ≤ (root ++ (nh ++ (rf ++ proof))).length := by
      simp [hroot, hnh, hrf]
      omega
    have ht1 : (root ++ (nh ++ (rf ++ proof))).take 32 = root :=
      List.take_left' hroot
    have hd1 : (root ++ (nh ++ (rf ++ proof))).drop 32 = nh ++ (rf ++ proof) :=
      List.drop_left' hroot
    have hd2 : (root ++ (nh ++ (rf ++ proof))).drop 64 = rf ++ proof := by
      rw [List.drop_append_eq_append_drop,
        List.drop_eq_nil_of_le (by omega), hroot]
      simp only [List.nil_append]
      exact List.drop_left' hnh
    have hd3 : (root ++ (nh ++ (rf ++ proof))).drop 96 = proof := by
      rw [List.drop_append_eq_append_drop,
        List.drop_eq_nil_of_le (by omega), hroot]
      simp only [List.nil_append]
      rw [List.drop_append_eq_append_drop,
        List.drop_eq_nil_of_le (by omega), hnh]
      simp only [List.nil_append]
      exact List.drop_left' hrf
    simp [MixerInstruction.pack, MixerInstruction.unpack, hlen, ht1, hd1,
      hd2, hd3, List.take_left' hnh, List.take_left' hrf]
    omega

/-- C8 witness: concrete decoder checks for each operation kind. -/
theorem C8_witness :
    MixerInstruction.unpack (MixerInstruction.pack (.InitPool 1000000)) =
      .ok (.InitPool 1000000) ∧
    MixerInstruction.unpack (MixerInstruction.pack (.PushRoot rootOne)) =
      .ok (.PushRoot rootOne) ∧
    MixerInstruction.unpack
        (MixerInstruction.pack (.Withdraw rootOne nhOne rfOne [7, 7])) =
      .ok (.Withdraw rootOne nhOne rfOne [7, 7]) ∧
    MixerInstruction.unpack (2 :: List.replicate 95 0) =
      .error .InvalidInstruction ∧
    MixerInstruction.unpack [3] = .error .InvalidInstruction := by
  refine ⟨(C8_decoder.2.2.2.2.2.2.2.2.1 1000000 (by decide)),
    (C8_decoder.2.2.2.2.2.2.2.2.2.1 rootOne (by decide)),
    (C8_decoder.2.2.2.2.2.2.2.2.2.2 rootOne nhOne rfOne [7, 7] (by decide)
      (by decide) (by decide)),
    (C8_decoder.2.2.2.2.2.2.1 (List.replicate 95 0) (by decide)),
    (C8_decoder.2.2.2.2.2.2.2.1 3 [] (by decide) (by decide) (by decide))⟩
